import Mathlib

/-!
Verification of the emergent repository's pause/step/resume stepper, the
leabra Synapse variable accessors, and the emer PrjnList name lookups.

The stepper implementation itself is not present in the source tree (only
its README and callers are), so the stepper component is modelled from the
specification text (sections 3, 4.2 and 4.3): each definition in the
`Stepper` namespace carries a doc comment saying which part of the spec it
renders.  The `Leabra` and `Emer` namespaces are shallow embeddings of
`src/leabra/leabra/synapse.go` and `src/emer/prjn.go`.
-/

namespace Stepper

/-- Modelled from the spec: the `RunState` enumeration of section 3
(Stopped, Running, Stepping, Paused); the stepper source is absent from
the tree. -/
inductive RunState
  | Stopped
  | Running
  | Stepping
  | Paused
deriving DecidableEq, Repr

/-- Modelled from the spec: a grain is an opaque equality-comparable tag;
in the observed usage grains are small integers, so we take `Int`. -/
abbrev Grain := Int

/-- Modelled from the spec: the Control State record of section 3 —
`RunState`, the active `Grain`, and `StepsRemaining` (an integer, so that
the spec's non-negativity invariant is a provable fact rather than a
typing artefact).  The generation counter exists only to rule out spurious
wakeups of the condition variable and has no effect on the values proved
about here, so it is omitted. -/
structure State where
  runState : RunState
  grain : Grain
  stepsRemaining : Int
deriving DecidableEq, Repr

/-- Modelled from the spec: the coordinator is initialized to `Stopped`
(section 3, lifecycle). -/
def init : State := ⟨.Stopped, 0, 0⟩

/-- Modelled from the spec: the controller command surface of sections 4.2
and 6 — StartStepping(grain, n), SetRunning(), Pause(), Enter(Stepping, n),
Enter(Running), Stop(), SetStepGrain(g), SetNSteps(n). -/
inductive Cmd
  | startStepping (g : Grain) (n : Int)
  | setRunning
  | pause
  | enterStepping (n : Int)
  | enterRunning
  | stop
  | setStepGrain (g : Grain)
  | setNSteps (n : Int)
deriving DecidableEq, Repr

/-- Modelled from the spec: the Step Coordinator state machine of section
4.2.  Each row of the transition table fires only from its `From` state;
a command issued from any other state is accepted and leaves the control
state unchanged (section 7: invalid transitions are accepted, never
rejected).  `SetStepGrain`/`SetNSteps` mutate `Grain`/`StepsRemaining`
only while `Paused` (section 4.2). -/
def applyCmd (s : State) : Cmd → State
  | .startStepping g n =>
      if s.runState = .Stopped then ⟨.Stepping, g, n⟩ else s
  | .setRunning =>
      if s.runState = .Stopped then { s with runState := .Running } else s
  | .pause =>
      if s.runState = .Running ∨ s.runState = .Stepping then
        { s with runState := .Paused }
      else s
  | .enterStepping n =>
      if s.runState = .Paused then
        { s with runState := .Stepping, stepsRemaining := n }
      else s
  | .enterRunning =>
      if s.runState = .Paused then { s with runState := .Running } else s
  | .stop => { s with runState := .Stopped }
  | .setStepGrain g =>
      if s.runState = .Paused then { s with grain := g } else s
  | .setNSteps n =>
      if s.runState = .Paused then { s with stepsRemaining := n } else s

/-- Modelled from the spec: outcome of one evaluation of the Suspension
Gate.  `cont` and `abort` are the two immediate returns; `block` means the
evaluation reached step 4 of section 4.3 — the worker is suspended in
`Paused` until a controller command (the wait itself cannot return inside
a single evaluation). -/
inductive GateOutcome
  | cont
  | abort
  | block
deriving DecidableEq, Repr

/-- Modelled from the spec: result of one gate evaluation — the outcome,
the control state as the gate leaves it, and how many times the registered
pause notifier was invoked during the call (step 3 of section 4.3). -/
structure GateResult where
  outcome : GateOutcome
  state : State
  notifies : Nat
deriving DecidableEq, Repr

/-- Modelled from the spec: whether the registered stop checker (at most
one, possibly absent; it receives the grain of the step point) fires. -/
def checkFires (chk : Option (Grain → Bool)) (g : Grain) : Bool :=
  match chk with
  | none => false
  | some c => c g

/-- Modelled from the spec: the Suspension Gate `StepPoint(grain)` of
section 4.3, executed under the lock.  Step 1: a firing stop checker
forces `Paused` regardless of `RunState`.  Step 2 branches on `RunState`:
`Stopped` aborts, `Running` continues, `Stepping` counts only a matching
grain — decrement, continue while still positive, else transition to
`Paused`; `Paused` falls through.  Step 3 invokes the pause notifier
(counted in `notifies`); step 4 blocks. -/
def stepPoint (chk : Option (Grain → Bool)) (s : State) (g : Grain) : GateResult :=
  if checkFires chk g then
    ⟨.block, { s with runState := .Paused }, 1⟩
  else
    match s.runState with
    | .Stopped => ⟨.abort, s, 0⟩
    | .Running => ⟨.cont, s, 0⟩
    | .Stepping =>
        if g = s.grain then
          if s.stepsRemaining - 1 > 0 then
            ⟨.cont, { s with stepsRemaining := s.stepsRemaining - 1 }, 0⟩
          else
            ⟨.block, { s with runState := .Paused,
                              stepsRemaining := s.stepsRemaining - 1 }, 1⟩
        else ⟨.cont, s, 0⟩
    | .Paused => ⟨.block, s, 1⟩

/-- Modelled from the spec: an execution event is either a controller
command or a worker gate call at some grain. -/
inductive Event
  | cmd (c : Cmd)
  | gate (g : Grain)
deriving DecidableEq, Repr

/-- Modelled from the spec: the control state after one event. -/
def applyEvent (chk : Option (Grain → Bool)) (s : State) : Event → State
  | .cmd c => applyCmd s c
  | .gate g => (stepPoint chk s g).state

/-- Modelled from the spec: the control state after a finite sequence of
events. -/
def runE (chk : Option (Grain → Bool)) (s : State) : List Event → State
  | [] => s
  | e :: es => runE chk (applyEvent chk s e) es

/-- Modelled from the spec: a command is well formed when the step counts
it supplies are meaningful — `StartStepping`/`Enter(Stepping, n)` carry a
positive count, `SetNSteps` a non-negative one ("StepsRemaining" is a
non-negative integer, section 3). -/
def Cmd.wf : Cmd → Prop
  | .startStepping _ n => 1 ≤ n
  | .enterStepping n => 1 ≤ n
  | .setNSteps n => 0 ≤ n
  | _ => True

/-- Modelled from the spec: well-formedness of an event. -/
def Event.wf : Event → Prop
  | .cmd c => c.wf
  | .gate _ => True

/-- The step-count invariant: `StepsRemaining` is never negative and is
positive whenever the stepper is in `Stepping`. -/
def Inv (s : State) : Prop :=
  0 ≤ s.stepsRemaining ∧ (s.runState = .Stepping → 1 ≤ s.stepsRemaining)

/-- The transition table of section 4.2, read as a relation on `RunState`
observations: which change of `RunState` each event is allowed to produce
(`SetStepGrain`/`SetNSteps` change no run state; a gate call changes the
run state only by the automatic `Stepping` to `Paused` transition). -/
def tableStep (pre : RunState) (e : Event) (post : RunState) : Prop :=
  match e with
  | .cmd (.startStepping _ _) => pre = .Stopped ∧ post = .Stepping
  | .cmd .setRunning => pre = .Stopped ∧ post = .Running
  | .cmd .pause => (pre = .Running ∨ pre = .Stepping) ∧ post = .Paused
  | .cmd (.enterStepping _) => pre = .Paused ∧ post = .Stepping
  | .cmd .enterRunning => pre = .Paused ∧ post = .Running
  | .cmd .stop => post = .Stopped
  | .cmd (.setStepGrain _) => post = pre
  | .cmd (.setNSteps _) => post = pre
  | .gate _ => pre = .Stepping ∧ post = .Paused

/-- Iterated gate calls: the control state after `k` consecutive
`StepPoint(g)` calls from `s` (a blocked call leaves the state where the
gate parked it, so further calls model the re-entrant behaviour). -/
def gateSeq (chk : Option (Grain → Bool)) (g : Grain) (s : State) : Nat → State
  | 0 => s
  | k + 1 => (stepPoint chk (gateSeq chk g s k) g).state

/-- Number of transitions of `RunState` into `Paused` along a trace. -/
def countPausedEntries (chk : Option (Grain → Bool)) (s : State) : List Event → Nat
  | [] => 0
  | e :: es =>
      let s' := applyEvent chk s e
      (if s.runState ≠ .Paused ∧ s'.runState = .Paused then 1 else 0) +
        countPausedEntries chk s' es

/-- Pause-notifier invocations caused by one event (controller commands
invoke no callback; only the gate does, at step 3 of section 4.3). -/
def eventNotifies (chk : Option (Grain → Bool)) (s : State) : Event → Nat
  | .cmd _ => 0
  | .gate g => (stepPoint chk s g).notifies

/-- Total pause-notifier invocations along a trace. -/
def countNotifies (chk : Option (Grain → Bool)) (s : State) : List Event → Nat
  | [] => 0
  | e :: es => eventNotifies chk s e + countNotifies chk (applyEvent chk s e) es

end Stepper

namespace Leabra

/-- leabra.Synapse of `src/leabra/leabra/synapse.go`: five named float32
fields, in declaration order Wt, LWt, DWt, Norm, Moment.  The code only
stores and retrieves field values (no arithmetic), so the float32 carrier
is kept as a type parameter `α`; the Go `SetVarByName` takes a float64
that `SetFloat` narrows to float32, which on values representable as
float32 (the only case the claims concern) is the identity embedding
used here. -/
structure Synapse (α : Type) where
  Wt : α
  LWt : α
  DWt : α
  Norm : α
  Moment : α
deriving DecidableEq, Repr

/-- `SynapseVars` of synapse.go. -/
def SynapseVars : List String := ["Wt", "LWt", "DWt", "Norm", "Moment"]

/-- Index of the first occurrence of a name in a variable list: the
lookup the `init()` of synapse.go builds `SynapseVarsMap` for (the names
are distinct, so first occurrence and map lookup agree). -/
def varIndex : List String → String → Option Nat
  | [], _ => none
  | v :: vs, nm => if v = nm then some 0 else (varIndex vs nm).map (· + 1)

/-- `SynapseVarsMap` of synapse.go as a lookup function. -/
def SynapseVarsMap (varNm : String) : Option Nat :=
  varIndex SynapseVars varNm

/-- The reflective `v.Elem().Field(i)` read of synapse.go: field of the
struct at declaration index `i`. -/
def Synapse.fieldByIndex {α : Type} (sy : Synapse α) : Nat → Option α
  | 0 => some sy.Wt
  | 1 => some sy.LWt
  | 2 => some sy.DWt
  | 3 => some sy.Norm
  | 4 => some sy.Moment
  | _ + 5 => none

/-- The reflective `v.Elem().Field(i).SetFloat(val)` write of synapse.go:
replace the field at declaration index `i` (an out-of-range index, which
reflection would panic on and the code never produces, leaves the struct
unchanged). -/
def Synapse.setFieldByIndex {α : Type} (sy : Synapse α) (i : Nat) (val : α) : Synapse α :=
  match i with
  | 0 => { sy with Wt := val }
  | 1 => { sy with LWt := val }
  | 2 => { sy with DWt := val }
  | 3 => { sy with Norm := val }
  | 4 => { sy with Moment := val }
  | _ + 5 => sy

/-- `Synapse.VarByName` of synapse.go: look the name up in
`SynapseVarsMap`; on a miss return (0, false), otherwise the field at the
found index and true. -/
def Synapse.VarByName {α : Type} [Zero α] (sy : Synapse α) (varNm : String) : α × Bool :=
  match SynapseVarsMap varNm with
  | none => (0, false)
  | some i =>
      match sy.fieldByIndex i with
      | none => (0, false)
      | some v => (v, true)

/-- `Synapse.SetVarByName` of synapse.go: look the name up; on a miss
return false leaving the synapse unchanged, otherwise set the field at
the found index and return true. -/
def Synapse.SetVarByName {α : Type} (sy : Synapse α) (varNm : String) (val : α) :
    Synapse α × Bool :=
  match SynapseVarsMap varNm with
  | none => (sy, false)
  | some i => (sy.setFieldByIndex i val, true)

end Leabra

namespace Emer

/-- The face of an emer.Prjn that the PrjnList name lookups of
`src/emer/prjn.go` consult: the names of its sending and receiving
layers (`SendLay().Name()` and `RecvLay().Name()`), plus a tag so that
distinct projections with equal layer names stay distinguishable. -/
structure Prjn where
  tag : Nat
  sendLayName : String
  recvLayName : String
deriving DecidableEq, Repr

/-- `PrjnList` of prjn.go: a slice of projections. -/
abbrev PrjnList := List Prjn

/-- `PrjnList.SendNameTry` of prjn.go: first projection whose sending
layer has the given name, else the formatted not-found error. -/
def PrjnList.SendNameTry : PrjnList → String → Except String Prjn
  | [], sender =>
      .error ("sending layer: " ++ sender ++ " not found in list of projections")
  | pj :: rest, sender =>
      if pj.sendLayName = sender then .ok pj else PrjnList.SendNameTry rest sender

/-- `PrjnList.RecvNameTry` of prjn.go: first projection whose receiving
layer has the given name, else the formatted not-found error. -/
def PrjnList.RecvNameTry : PrjnList → String → Except String Prjn
  | [], recv =>
      .error ("receiving layer: " ++ recv ++ " not found in list of projections")
  | pj :: rest, recv =>
      if pj.recvLayName = recv then .ok pj else PrjnList.RecvNameTry rest recv

/-- `PrjnList.SendName` of prjn.go: the projection component of
`SendNameTry`, dropping the error — nil (`none`) when nothing matched. -/
def PrjnList.SendName (pl : PrjnList) (sender : String) : Option Prjn :=
  (pl.SendNameTry sender).toOption

/-- `PrjnList.RecvName` of prjn.go: the projection component of
`RecvNameTry`, dropping the error — nil (`none`) when nothing matched. -/
def PrjnList.RecvName (pl : PrjnList) (recv : String) : Option Prjn :=
  (pl.RecvNameTry recv).toOption

end Emer

namespace Stepper

/-- `runE` distributes over list append. -/
lemma runE_append (chk : Option (Grain → Bool)) (s : State) (es es' : List Event) :
    runE chk s (es ++ es') = runE chk (runE chk s es) es' := by
  induction es generalizing s with
  | nil => simp [runE]
  | cons e es ih => simp [runE, ih]

/-- Every single event, evaluated with no stop checker, either leaves the
run state unchanged or realises a row of the section 4.2 table. -/
lemma runState_step (s : State) (e : Event) :
    (applyEvent none s e).runState = s.runState ∨
      tableStep s.runState e (applyEvent none s e).runState := by
  rcases s with ⟨rs, g0, n0⟩
  cases e with
  | cmd c =>
      cases c <;> cases rs <;> simp [applyEvent, applyCmd, tableStep]
  | gate g =>
      cases rs <;>
        simp only [applyEvent, stepPoint, checkFires, tableStep] <;>
        split_ifs <;> simp_all

end Stepper

/-- Claim C1: for every finite sequence of controller commands applied
from the initial Stopped state, the RunState after each command is
exactly the state given by the transition table in spec section 4.2
(StartStepping and SetRunning from Stopped, Pause from Running or
Stepping, Enter from Paused, Stop from any state, and the automatic
Stepping-to-Paused transition on step exhaustion); no RunState outside
the four named ones exists, and no other transition is ever observed
(events are commands plus gate calls with no stop checker registered). -/
theorem stepper_transition_table :
    (∀ (g0 : Stepper.Grain) (n0 : Int) (g : Stepper.Grain) (n : Int),
      Stepper.applyCmd ⟨.Stopped, g0, n0⟩ (.startStepping g n) = ⟨.Stepping, g, n⟩ ∧
      Stepper.applyCmd ⟨.Stopped, g0, n0⟩ .setRunning = ⟨.Running, g0, n0⟩ ∧
      Stepper.applyCmd ⟨.Running, g0, n0⟩ .pause = ⟨.Paused, g0, n0⟩ ∧
      Stepper.applyCmd ⟨.Stepping, g0, n0⟩ .pause = ⟨.Paused, g0, n0⟩ ∧
      Stepper.applyCmd ⟨.Paused, g0, n0⟩ (.enterStepping n) = ⟨.Stepping, g0, n⟩ ∧
      Stepper.applyCmd ⟨.Paused, g0, n0⟩ .enterRunning = ⟨.Running, g0, n0⟩ ∧
      (∀ rs, Stepper.applyCmd ⟨rs, g0, n0⟩ .stop = ⟨.Stopped, g0, n0⟩)) ∧
    (∀ rs : Stepper.RunState,
      rs = .Stopped ∨ rs = .Running ∨ rs = .Stepping ∨ rs = .Paused) ∧
    (∀ (s : Stepper.State) (e : Stepper.Event),
      (Stepper.applyEvent none s e).runState = s.runState ∨
        Stepper.tableStep s.runState e (Stepper.applyEvent none s e).runState) ∧
    (∀ (es : List Stepper.Event) (e : Stepper.Event),
      (Stepper.runE none Stepper.init (es ++ [e])).runState =
          (Stepper.runE none Stepper.init es).runState ∨
        Stepper.tableStep (Stepper.runE none Stepper.init es).runState e
          (Stepper.runE none Stepper.init (es ++ [e])).runState) := by
  refine ⟨?_, ?_, Stepper.runState_step, ?_⟩
  · intro g0 n0 g n
    refine ⟨by simp [Stepper.applyCmd], by simp [Stepper.applyCmd],
      by simp [Stepper.applyCmd], by simp [Stepper.applyCmd],
      by simp [Stepper.applyCmd], by simp [Stepper.applyCmd], ?_⟩
    intro rs
    cases rs <;> simp [Stepper.applyCmd]
  · intro rs; cases rs <;> simp
  · intro es e
    rw [Stepper.runE_append]
    simpa [Stepper.runE] using
      Stepper.runState_step (Stepper.runE none Stepper.init es) e

namespace Stepper

/-- One well-formed event preserves the step-count invariant. -/
lemma inv_applyEvent (chk : Option (Grain → Bool)) (s : State) (e : Event)
    (hwf : e.wf) (h : Inv s) : Inv (applyEvent chk s e) := by
  obtain ⟨h0, h1⟩ := h
  rcases s with ⟨rs, g0, n0⟩
  cases e with
  | cmd c =>
      cases c <;> cases rs <;>
        simp_all [applyEvent, applyCmd, Event.wf, Cmd.wf, Inv] <;> omega
  | gate g =>
      cases hc : checkFires chk g <;> cases rs <;>
        simp only [applyEvent, stepPoint, hc] <;>
        split_ifs <;> simp_all [Inv]
      all_goals omega

/-- A well-formed trace preserves the step-count invariant. -/
lemma inv_runE (chk : Option (Grain → Bool)) (es : List Event) (s : State)
    (h : Inv s) (hwf : ∀ e ∈ es, e.wf) : Inv (runE chk s es) := by
  induction es generalizing s with
  | nil => exact h
  | cons e es ih =>
      exact ih (applyEvent chk s e)
        (inv_applyEvent chk s e (hwf e (by simp)) h)
        (fun e' he' => hwf e' (by simp [he']))

end Stepper

/-- Claim C2: along every well-formed trace from the initial state,
StepsRemaining is never negative (and is positive whenever the stepper is
in Stepping); a gate call either leaves StepsRemaining unchanged or
decrements it by one, and the decrement happens only when RunState is
Stepping and the grain matches at that moment (controller commands assign
the counter, they never decrement it); and when the decrement makes the
counter reach zero, the gate transitions to Paused and blocks before
returning control to the worker. -/
theorem stepper_steps_remaining_invariant :
    (∀ (chk : Option (Stepper.Grain → Bool)) (es : List Stepper.Event),
      (∀ e ∈ es, e.wf) →
        0 ≤ (Stepper.runE chk Stepper.init es).stepsRemaining ∧
        ((Stepper.runE chk Stepper.init es).runState = .Stepping →
          1 ≤ (Stepper.runE chk Stepper.init es).stepsRemaining)) ∧
    (∀ (chk : Option (Stepper.Grain → Bool)) (s : Stepper.State) (g : Stepper.Grain),
      (Stepper.stepPoint chk s g).state.stepsRemaining = s.stepsRemaining ∨
        (s.runState = .Stepping ∧ g = s.grain ∧
          (Stepper.stepPoint chk s g).state.stepsRemaining = s.stepsRemaining - 1)) ∧
    (∀ (s : Stepper.State) (g : Stepper.Grain),
      s.runState = .Stepping → g = s.grain → s.stepsRemaining ≤ 1 →
        (Stepper.stepPoint none s g).state.runState = .Paused ∧
        (Stepper.stepPoint none s g).outcome = .block) := by
  refine ⟨?_, ?_, ?_⟩
  · intro chk es hwf
    exact Stepper.inv_runE chk es Stepper.init
      (by simp [Stepper.Inv, Stepper.init]) hwf
  · intro chk s g
    rcases s with ⟨rs, g0, n0⟩
    cases hc : Stepper.checkFires chk g <;> cases rs <;>
      simp only [Stepper.stepPoint, hc] <;>
      split_ifs <;> simp_all
  · intro s g h1 h2 h3
    rcases s with ⟨rs, g0, n0⟩
    subst h1
    have h2' : g = g0 := h2
    have hneg : ¬ (n0 - 1 > 0) := by simp at h3 ⊢; omega
    simp [Stepper.stepPoint, Stepper.checkFires, h2', hneg]

/-- Witness for C2 at concrete inputs: the two-event trace StartStepping
followed by a matching gate call keeps a non-negative counter, and a
matching gate call at one remaining step pauses. -/
theorem stepper_steps_remaining_invariant_witness :
    (0 ≤ (Stepper.runE none Stepper.init
      [.cmd (.startStepping 0 2), .gate 0]).stepsRemaining) ∧
    (Stepper.stepPoint none ⟨.Stepping, 5, 1⟩ 5).state.runState = .Paused :=
  ⟨(stepper_steps_remaining_invariant.1 none [.cmd (.startStepping 0 2), .gate 0]
      (by
        intro e he
        simp only [List.mem_cons, List.not_mem_nil, or_false] at he
        rcases he with rfl | rfl <;>
          simp [Stepper.Event.wf, Stepper.Cmd.wf])).1,
   (stepper_steps_remaining_invariant.2.2 ⟨.Stepping, 5, 1⟩ 5 rfl rfl
      (by norm_num)).1⟩

namespace Stepper

/-- While fewer matching gate calls than the step count have happened,
the stepper stays in Stepping with the count reduced by the calls made. -/
lemma gateSeq_stepping (g : Grain) (n : Int) (k : Nat) (hk : (k : Int) < n) :
    gateSeq none g ⟨.Stepping, g, n⟩ k = ⟨.Stepping, g, n - k⟩ := by
  induction k with
  | zero => simp [gateSeq]
  | succ k ih =>
      have hk' : (k : Int) < n := by push_cast at hk ⊢; omega
      have hpos : n - (k : Int) - 1 > 0 := by push_cast at hk; omega
      rw [gateSeq, ih hk']
      simp only [stepPoint, checkFires, if_pos rfl, hpos]
      simp
      ring

/-- Once at least the step count of matching gate calls have happened,
the stepper is parked in Paused with a zero counter. -/
lemma gateSeq_paused (g : Grain) (n : Int) (hn : 1 ≤ n) (k : Nat)
    (hk : n ≤ (k : Int)) :
    gateSeq none g ⟨.Stepping, g, n⟩ k = ⟨.Paused, g, 0⟩ := by
  induction k with
  | zero => exact absurd hk (by push_cast; omega)
  | succ k ih =>
      by_cases hcase : n ≤ (k : Int)
      · rw [gateSeq, ih hcase]
        simp [stepPoint, checkFires]
      · have hk2 : (k : Int) < n := by omega
        have hval : n - (k : Int) = 1 := by push_cast at hk; omega
        rw [gateSeq, gateSeq_stepping g n k hk2]
        have hneg : ¬ ((⟨.Stepping, g, n - (k : Int)⟩ : State).stepsRemaining - 1 > 0) := by
          simp [hval]
        simp [stepPoint, checkFires, hneg, hval]

end Stepper

/-- Claim C3: from RunState = Stepping with active grain g and
StepsRemaining = n, 1 ≤ n, and no stop checker, consecutive worker calls
of StepPoint(g) return continue for each of the first n−1 calls, and the
n-th call — and every call after it while no resume command intervenes —
blocks after leaving the state in Paused. -/
theorem stepper_stepping_blocks_on_nth :
    ∀ (g : Stepper.Grain) (n : Int) (k : Nat), 1 ≤ n →
      (1 ≤ k → (k : Int) ≤ n - 1 →
        (Stepper.stepPoint none
          (Stepper.gateSeq none g ⟨.Stepping, g, n⟩ (k - 1)) g).outcome = .cont) ∧
      (1 ≤ k → n ≤ (k : Int) →
        (Stepper.stepPoint none
            (Stepper.gateSeq none g ⟨.Stepping, g, n⟩ (k - 1)) g).outcome = .block ∧
          (Stepper.stepPoint none
            (Stepper.gateSeq none g ⟨.Stepping, g, n⟩ (k - 1)) g).state =
              ⟨.Paused, g, 0⟩) := by
  intro g n k hn
  constructor
  · intro hk1 hkn
    have hlt : ((k - 1 : Nat) : Int) < n := by omega
    rw [Stepper.gateSeq_stepping g n (k - 1) hlt]
    have hpos : n - ((k - 1 : Nat) : Int) - 1 > 0 := by omega
    simp [Stepper.stepPoint, Stepper.checkFires, hpos]
  · intro hk1 hkn
    by_cases hc : n ≤ ((k - 1 : Nat) : Int)
    · rw [Stepper.gateSeq_paused g n hn (k - 1) hc]
      simp [Stepper.stepPoint, Stepper.checkFires]
    · have hlt : ((k - 1 : Nat) : Int) < n := by omega
      have hval : n - ((k - 1 : Nat) : Int) = 1 := by omega
      rw [Stepper.gateSeq_stepping g n (k - 1) hlt]
      have hneg :
          ¬ ((⟨.Stepping, g, n - ((k - 1 : Nat) : Int)⟩ :
              Stepper.State).stepsRemaining - 1 > 0) := by
        simp [hval]
      simp [Stepper.stepPoint, Stepper.checkFires, hneg, hval]

/-- Witness for C3 at concrete inputs: with 3 steps to run on grain 0,
the first call continues and the third call blocks. -/
theorem stepper_stepping_blocks_on_nth_witness :
    (Stepper.stepPoint none
      (Stepper.gateSeq none 0 ⟨.Stepping, 0, 3⟩ 0) 0).outcome = .cont ∧
    (Stepper.stepPoint none
      (Stepper.gateSeq none 0 ⟨.Stepping, 0, 3⟩ 2) 0).outcome = .block :=
  ⟨(stepper_stepping_blocks_on_nth 0 3 1 (by norm_num)).1
      (by norm_num) (by norm_num),
   ((stepper_stepping_blocks_on_nth 0 3 3 (by norm_num)).2
      (by norm_num) (by norm_num)).1⟩

/-- Claim C4: a StepPoint call whose grain differs from the active grain,
made while Stepping with the stop checker not firing, returns continue
without blocking and leaves the entire control state (RunState, Grain,
StepsRemaining) unchanged, for any value of StepsRemaining. -/
theorem stepper_grain_mismatch_frame :
    ∀ (chk : Option (Stepper.Grain → Bool)) (s : Stepper.State) (g' : Stepper.Grain),
      Stepper.checkFires chk g' = false →
      s.runState = .Stepping →
      g' ≠ s.grain →
      Stepper.stepPoint chk s g' = ⟨.cont, s, 0⟩ := by
  intro chk s g' hchk hrs hne
  rcases s with ⟨rs, g0, n0⟩
  subst hrs
  simp [Stepper.stepPoint, hchk, hne]

/-- Witness for C4 at a concrete state: grain 1 against active grain 0
with 7 steps remaining continues and changes nothing. -/
theorem stepper_grain_mismatch_frame_witness :
    Stepper.stepPoint none ⟨.Stepping, 0, 7⟩ 1 = ⟨.cont, ⟨.Stepping, 0, 7⟩, 0⟩ :=
  stepper_grain_mismatch_frame none ⟨.Stepping, 0, 7⟩ 1 rfl rfl (by decide)

/-- Claim C5, counterexample: the trace SetRunning; Pause; Enter(Running)
makes one transition of RunState into Paused, yet the pause notifier is
invoked zero times, and the execution has moved on (final state Running),
so no later notification can be pending for that transition — the claim
"exactly once per transition into Paused, never zero" fails as stated. -/
theorem stepper_pause_notify_counterexample :
    Stepper.countPausedEntries none Stepper.init
        [.cmd .setRunning, .cmd .pause, .cmd .enterRunning] = 1 ∧
    Stepper.countNotifies none Stepper.init
        [.cmd .setRunning, .cmd .pause, .cmd .enterRunning] = 0 ∧
    (Stepper.runE none Stepper.init
        [.cmd .setRunning, .cmd .pause, .cmd .enterRunning]).runState = .Running := by
  decide

/-- Claim C5, amended: a registered pause notifier is invoked exactly
once by each StepPoint call that blocks — equivalently, each call that
ends with RunState = Paused, whether via step exhaustion, stop-checker
match, or observing a Pause() issued earlier — and zero times by any
other gate call; controller commands themselves never invoke it (a
transition into Paused that a controller reverses before the worker's
next gate call therefore triggers no invocation). -/
theorem stepper_pause_notify_per_blocking_gate :
    ∀ (chk : Option (Stepper.Grain → Bool)) (s : Stepper.State) (g : Stepper.Grain),
      ((Stepper.stepPoint chk s g).notifies =
        if (Stepper.stepPoint chk s g).outcome = .block then 1 else 0) ∧
      ((Stepper.stepPoint chk s g).outcome = .block ↔
        (Stepper.stepPoint chk s g).state.runState = .Paused) ∧
      (∀ c, Stepper.eventNotifies chk s (.cmd c) = 0) := by
  intro chk s g
  rcases s with ⟨rs, g0, n0⟩
  refine ⟨?_, ?_, fun c => rfl⟩ <;>
    cases hc : Stepper.checkFires chk g <;>
      cases rs <;>
        simp only [Stepper.stepPoint, hc] <;>
        first
          | rfl
          | (split_ifs <;> simp_all)

/-- Claim C6, counterexample: with a stop checker registered that fires
exactly on grain 5, the state (Running, grain 0) and the two call grains
1 and 5 agree on the equality test against the active grain (both
differ), yet StepPoint(1) continues while StepPoint(5) pauses and blocks:
the gate's decision also depends on the grain through the stop checker,
not only through equality with the active grain. -/
theorem stepper_grain_equality_counterexample :
    ((1 : Stepper.Grain) = (0 : Stepper.Grain) ↔
      (5 : Stepper.Grain) = (0 : Stepper.Grain)) ∧
    Stepper.stepPoint (some fun g => decide (g = 5)) ⟨.Running, 0, 0⟩ 1 ≠
      Stepper.stepPoint (some fun g => decide (g = 5)) ⟨.Running, 0, 0⟩ 5 := by
  decide

/-- Claim C6, amended: when the registered stop checker (if any) returns
the same answer on both grains, the decision and successor state of
StepPoint depend on the grain argument only through the equality test
against the active grain: two grains agreeing on that test produce
identical gate results from any state. -/
theorem stepper_grain_equality_only :
    ∀ (chk : Option (Stepper.Grain → Bool)) (s : Stepper.State)
      (g1 g2 : Stepper.Grain),
      ((g1 = s.grain) ↔ (g2 = s.grain)) →
      Stepper.checkFires chk g1 = Stepper.checkFires chk g2 →
      Stepper.stepPoint chk s g1 = Stepper.stepPoint chk s g2 := by
  intro chk s g1 g2 hiff hchk
  rcases s with ⟨rs, g0, n0⟩
  simp only [Stepper.stepPoint, hchk]
  cases Stepper.checkFires chk g2 <;> simp
  cases rs <;> simp
  by_cases h1 : g1 = g0
  · have h2 : g2 = g0 := hiff.mp h1
    simp [h1, h2]
  · have h2 : ¬ g2 = g0 := fun h => h1 (hiff.mpr h)
    simp [h1, h2]

/-- Witness for the amended C6 at concrete inputs: grains 1 and 2 both
differ from the active grain 0, no checker, identical results. -/
theorem stepper_grain_equality_only_witness :
    Stepper.stepPoint none ⟨.Stepping, 0, 5⟩ 1 =
      Stepper.stepPoint none ⟨.Stepping, 0, 5⟩ 2 :=
  stepper_grain_equality_only none ⟨.Stepping, 0, 5⟩ 1 2 (by decide) rfl

/-- Claim C7: Stop is idempotent from any state, Stop from Stopped leaves
the control state untouched, and Pause twice in a row leaves the same
state as Pause once. -/
theorem stepper_stop_pause_idempotent :
    ∀ (s : Stepper.State) (g0 : Stepper.Grain) (n0 : Int),
      Stepper.applyCmd (Stepper.applyCmd s .stop) .stop = Stepper.applyCmd s .stop ∧
      Stepper.applyCmd ⟨.Stopped, g0, n0⟩ .stop = ⟨.Stopped, g0, n0⟩ ∧
      Stepper.applyCmd (Stepper.applyCmd s .pause) .pause = Stepper.applyCmd s .pause := by
  intro s g0 n0
  rcases s with ⟨rs, g, n⟩
  cases rs <;> simp [Stepper.applyCmd]

/-- Claim C8: SetStepGrain and SetNSteps are accepted in any RunState and
never corrupt the control state — while Paused they mutate Grain and
StepsRemaining (the grain set while Paused is still in force when
Stepping is next entered; the count supplied at that entry governs the
new stepping episode); while Running or Stepping they leave the state
exactly as it was (accepted, no error, no invalid state); and a StepPoint
call made before any StartStepping/SetRunning or after Stop() — that is,
with RunState = Stopped and the stop checker not firing — returns abort
immediately without blocking and without touching the state. -/
theorem stepper_set_grain_nsteps_safe :
    ∀ (g0 : Stepper.Grain) (n0 : Int) (g : Stepper.Grain) (n m : Int)
      (s : Stepper.State) (chk : Option (Stepper.Grain → Bool)) (gg : Stepper.Grain),
      Stepper.applyCmd ⟨.Paused, g0, n0⟩ (.setStepGrain g) = ⟨.Paused, g, n0⟩ ∧
      Stepper.applyCmd ⟨.Paused, g0, n0⟩ (.setNSteps m) = ⟨.Paused, g0, m⟩ ∧
      Stepper.applyCmd (Stepper.applyCmd ⟨.Paused, g0, n0⟩ (.setStepGrain g))
          (.enterStepping n) = ⟨.Stepping, g, n⟩ ∧
      (s.runState = .Running ∨ s.runState = .Stepping →
        Stepper.applyCmd s (.setStepGrain g) = s ∧
        Stepper.applyCmd s (.setNSteps m) = s) ∧
      (Stepper.checkFires chk gg = false → s.runState = .Stopped →
        Stepper.stepPoint chk s gg = ⟨.abort, s, 0⟩) ∧
      Stepper.init.runState = .Stopped ∧
      (∀ s' : Stepper.State, (Stepper.applyCmd s' .stop).runState = .Stopped) := by
  intro g0 n0 g n m s chk gg
  refine ⟨by simp [Stepper.applyCmd], by simp [Stepper.applyCmd],
    by simp [Stepper.applyCmd], ?_, ?_, rfl, fun s' => rfl⟩
  · intro hrs
    rcases s with ⟨rs, sg, sn⟩
    rcases hrs with h | h <;> subst h <;> simp [Stepper.applyCmd]
  · intro hchk hrs
    rcases s with ⟨rs, sg, sn⟩
    subst hrs
    simp [Stepper.stepPoint, hchk]

/-- Witness for C8 at concrete inputs: SetStepGrain and SetNSteps are
no-ops from Running, and a gate call from the initial Stopped state
aborts without touching the state. -/
theorem stepper_set_grain_nsteps_safe_witness :
    (Stepper.applyCmd ⟨.Running, 0, 0⟩ (.setStepGrain 1) = ⟨.Running, 0, 0⟩ ∧
      Stepper.applyCmd ⟨.Running, 0, 0⟩ (.setNSteps 3) = ⟨.Running, 0, 0⟩) ∧
    Stepper.stepPoint none Stepper.init 0 = ⟨.abort, Stepper.init, 0⟩ :=
  ⟨(stepper_set_grain_nsteps_safe 0 0 1 2 3 ⟨.Running, 0, 0⟩ none 0).2.2.2.1
      (Or.inl rfl),
   (stepper_set_grain_nsteps_safe 0 0 1 2 3 Stepper.init none 0).2.2.2.2.1
      rfl rfl⟩

namespace Leabra

/-- A name that is not in the variable list has no index. -/
lemma varIndex_eq_none (vs : List String) (nm : String) (h : nm ∉ vs) :
    varIndex vs nm = none := by
  induction vs with
  | nil => rfl
  | cons v vs ih =>
      simp only [List.mem_cons, not_or] at h
      have hne : ¬ (v = nm) := fun hv => h.1 hv.symm
      simp [varIndex, hne, ih h.2]

end Leabra

/-- Claim C9: for every Synapse and every name in SynapseVars,
SetVarByName succeeds (returns true) and a subsequent VarByName on the
same name reads back exactly the value that was set, with success flag
true; each listed name addresses exactly its own field, read and write;
and for every name outside SynapseVars, SetVarByName returns false
leaving every field unchanged while VarByName returns (0, false). -/
theorem leabra_synapse_var_roundtrip :
    ∀ (sy : Leabra.Synapse Int) (v : Int) (nm : String),
      (nm ∈ Leabra.SynapseVars →
        (sy.SetVarByName nm v).2 = true ∧
        (sy.SetVarByName nm v).1.VarByName nm = (v, true)) ∧
      (nm ∉ Leabra.SynapseVars →
        sy.SetVarByName nm v = (sy, false) ∧
        sy.VarByName nm = (0, false)) ∧
      sy.VarByName "Wt" = (sy.Wt, true) ∧
      sy.VarByName "LWt" = (sy.LWt, true) ∧
      sy.VarByName "DWt" = (sy.DWt, true) ∧
      sy.VarByName "Norm" = (sy.Norm, true) ∧
      sy.VarByName "Moment" = (sy.Moment, true) ∧
      sy.SetVarByName "Wt" v = ({ sy with Wt := v }, true) ∧
      sy.SetVarByName "LWt" v = ({ sy with LWt := v }, true) ∧
      sy.SetVarByName "DWt" v = ({ sy with DWt := v }, true) ∧
      sy.SetVarByName "Norm" v = ({ sy with Norm := v }, true) ∧
      sy.SetVarByName "Moment" v = ({ sy with Moment := v }, true) := by
  intro sy v nm
  refine ⟨?_, ?_, rfl, rfl, rfl, rfl, rfl, rfl, rfl, rfl, rfl, rfl⟩
  · intro h
    simp only [Leabra.SynapseVars, List.mem_cons, List.not_mem_nil,
      or_false] at h
    rcases h with rfl | rfl | rfl | rfl | rfl <;> exact ⟨rfl, rfl⟩
  · intro h
    have hnone : Leabra.SynapseVarsMap nm = none :=
      Leabra.varIndex_eq_none _ _ h
    constructor <;>
      simp [Leabra.Synapse.SetVarByName, Leabra.Synapse.VarByName, hnone]

/-- Witness for C9 at concrete inputs: setting DWt on a concrete synapse
reads back, and an unknown name fails cleanly. -/
theorem leabra_synapse_var_roundtrip_witness :
    ((Leabra.Synapse.SetVarByName ⟨1, 2, 3, 4, 5⟩ "DWt" (9 : Int)).2 = true ∧
      (Leabra.Synapse.SetVarByName ⟨1, 2, 3, 4, 5⟩ "DWt"
        (9 : Int)).1.VarByName "DWt" = (9, true)) ∧
    (Leabra.Synapse.SetVarByName ⟨1, 2, 3, 4, 5⟩ "Bogus" (9 : Int) =
        (⟨1, 2, 3, 4, 5⟩, false) ∧
      Leabra.Synapse.VarByName (⟨1, 2, 3, 4, 5⟩ : Leabra.Synapse Int) "Bogus" =
        (0, false)) :=
  ⟨(leabra_synapse_var_roundtrip ⟨1, 2, 3, 4, 5⟩ 9 "DWt").1 (by decide),
   (leabra_synapse_var_roundtrip ⟨1, 2, 3, 4, 5⟩ 9 "Bogus").2.1 (by decide)⟩

namespace Emer

/-- `SendNameTry` succeeds with a projection exactly when that projection
is the first one, in list order, whose sending layer has the name. -/
lemma sendNameTry_ok_iff (pl : PrjnList) (s : String) (pj : Prjn) :
    pl.SendNameTry s = .ok pj ↔
      pl.find? (fun p => p.sendLayName == s) = some pj := by
  induction pl with
  | nil => simp [PrjnList.SendNameTry]
  | cons p rest ih =>
      by_cases h : p.sendLayName = s
      · simp [PrjnList.SendNameTry, h, List.find?_cons]
      · simp [PrjnList.SendNameTry, h, List.find?_cons, ih]

/-- `RecvNameTry` succeeds with a projection exactly when that projection
is the first one, in list order, whose receiving layer has the name. -/
lemma recvNameTry_ok_iff (pl : PrjnList) (r : String) (pj : Prjn) :
    pl.RecvNameTry r = .ok pj ↔
      pl.find? (fun p => p.recvLayName == r) = some pj := by
  induction pl with
  | nil => simp [PrjnList.RecvNameTry]
  | cons p rest ih =>
      by_cases h : p.recvLayName = r
      · simp [PrjnList.RecvNameTry, h, List.find?_cons]
      · simp [PrjnList.RecvNameTry, h, List.find?_cons, ih]

/-- Some projection sends from the named layer exactly when
`SendNameTry` succeeds. -/
lemma sendNameTry_ok_exists_iff (pl : PrjnList) (s : String) :
    (∃ pj ∈ pl, pj.sendLayName = s) ↔ ∃ pj, pl.SendNameTry s = .ok pj := by
  induction pl with
  | nil => simp [PrjnList.SendNameTry]
  | cons p rest ih =>
      by_cases h : p.sendLayName = s <;> simp [PrjnList.SendNameTry, h, ih]

/-- Some projection receives at the named layer exactly when
`RecvNameTry` succeeds. -/
lemma recvNameTry_ok_exists_iff (pl : PrjnList) (r : String) :
    (∃ pj ∈ pl, pj.recvLayName = r) ↔ ∃ pj, pl.RecvNameTry r = .ok pj := by
  induction pl with
  | nil => simp [PrjnList.RecvNameTry]
  | cons p rest ih =>
      by_cases h : p.recvLayName = r <;> simp [PrjnList.RecvNameTry, h, ih]

/-- `SendNameTry` returns the not-found error exactly when no projection
sends from the named layer. -/
lemma sendNameTry_error_iff (pl : PrjnList) (s : String) :
    (∃ msg, pl.SendNameTry s = .error msg) ↔
      ¬ ∃ pj ∈ pl, pj.sendLayName = s := by
  rw [sendNameTry_ok_exists_iff]
  cases h : pl.SendNameTry s <;> simp [h]

/-- `RecvNameTry` returns the not-found error exactly when no projection
receives at the named layer. -/
lemma recvNameTry_error_iff (pl : PrjnList) (r : String) :
    (∃ msg, pl.RecvNameTry r = .error msg) ↔
      ¬ ∃ pj ∈ pl, pj.recvLayName = r := by
  rw [recvNameTry_ok_exists_iff]
  cases h : pl.RecvNameTry r <;> simp [h]

/-- `SendName` is empty exactly when no projection sends from the named
layer. -/
lemma sendName_none_iff (pl : PrjnList) (s : String) :
    pl.SendName s = none ↔ ¬ ∃ pj ∈ pl, pj.sendLayName = s := by
  rw [sendNameTry_ok_exists_iff]
  unfold PrjnList.SendName
  cases h : pl.SendNameTry s <;> simp [h, Except.toOption]

/-- `RecvName` is empty exactly when no projection receives at the named
layer. -/
lemma recvName_none_iff (pl : PrjnList) (r : String) :
    pl.RecvName r = none ↔ ¬ ∃ pj ∈ pl, pj.recvLayName = r := by
  rw [recvNameTry_ok_exists_iff]
  unfold PrjnList.RecvName
  cases h : pl.RecvNameTry r <;> simp [h, Except.toOption]

end Emer

/-- Claim C10: SendNameTry succeeds (nil error) exactly when some
projection's sending layer has the given name, in which case it returns
the first such projection in list order; when nothing matches it returns
the not-found error; SendName is exactly the projection component of
SendNameTry, hence nil precisely when no projection matches; and the same
holds for RecvNameTry/RecvName with respect to the receiving layer. -/
theorem emer_prjnlist_name_lookup :
    ∀ (pl : Emer.PrjnList) (s r : String),
      (∀ pj, pl.SendNameTry s = .ok pj ↔
        pl.find? (fun p => p.sendLayName == s) = some pj) ∧
      ((∃ pj ∈ pl, pj.sendLayName = s) ↔ ∃ pj, pl.SendNameTry s = .ok pj) ∧
      ((∃ msg, pl.SendNameTry s = .error msg) ↔
        ¬ ∃ pj ∈ pl, pj.sendLayName = s) ∧
      pl.SendName s = (pl.SendNameTry s).toOption ∧
      (pl.SendName s = none ↔ ¬ ∃ pj ∈ pl, pj.sendLayName = s) ∧
      (∀ pj, pl.RecvNameTry r = .ok pj ↔
        pl.find? (fun p => p.recvLayName == r) = some pj) ∧
      ((∃ pj ∈ pl, pj.recvLayName = r) ↔ ∃ pj, pl.RecvNameTry r = .ok pj) ∧
      ((∃ msg, pl.RecvNameTry r = .error msg) ↔
        ¬ ∃ pj ∈ pl, pj.recvLayName = r) ∧
      pl.RecvName r = (pl.RecvNameTry r).toOption ∧
      (pl.RecvName r = none ↔ ¬ ∃ pj ∈ pl, pj.recvLayName = r) :=
  fun pl s r =>
    ⟨fun pj => Emer.sendNameTry_ok_iff pl s pj,
     Emer.sendNameTry_ok_exists_iff pl s,
     Emer.sendNameTry_error_iff pl s,
     rfl,
     Emer.sendName_none_iff pl s,
     fun pj => Emer.recvNameTry_ok_iff pl r pj,
     Emer.recvNameTry_ok_exists_iff pl r,
     Emer.recvNameTry_error_iff pl r,
     rfl,
     Emer.recvName_none_iff pl r⟩

